import Mathlib

/-!
Shallow embedding of `src/main.rs`, an interactive shunting-yard calculator.

Modelling conventions:
* Rust `f64` values are modelled as `ℚ`. Every claim settled here is
  independent of floating-point rounding and of the value of division by
  zero (`x / 0` is `0` in `ℚ`, `inf`/`NaN` in `f64`; no claim inspects it).
* Rust `String` input is modelled as `List Char`; the `&'static str`
  error messages are Lean `String` literals, copied verbatim.
* Rust `Vec` used as a stack is a Lean `List` whose head is the stack top.
* A Rust panic (the `unreachable!()` branch of `Op::call`) is the
  distinguished outcome `Res.panic`; `Result::Ok`/`Result::Err` are
  `Res.ok`/`Res.err` (or `Except` for the stages that cannot panic).
* Rust `char::is_whitespace` is modelled by `Char.isWhitespace`
  (the ASCII whitespace characters; no claim involves exotic whitespace).
-/

namespace ShuntingYard

/-- The operator enum `Op` of `src/main.rs`. -/
inductive Op where
  | Add
  | Sub
  | Mul
  | Div
  | ParOpen
  | ParClose
deriving DecidableEq, Repr

/-- Model of `Op::from_char`. The Rust function panics (`unreachable!()`) on any other
character; it is only ever called on the six characters below, so the model
returns `Option` and the caller (`Tokens::parse`) matches on the same six. -/
def Op.from_char (c : Char) : Option Op :=
  if c = '+' then some Op.Add
  else if c = '-' then some Op.Sub
  else if c = '*' then some Op.Mul
  else if c = '/' then some Op.Div
  else if c = '(' then some Op.ParOpen
  else if c = ')' then some Op.ParClose
  else none

/-- Model of `Op::precedence`. -/
def Op.precedence : Op → Nat
  | Op.ParOpen | Op.ParClose => 0
  | Op.Add | Op.Sub => 1
  | Op.Mul | Op.Div => 2

/-- Model of `Op::call`. The `_ => unreachable!()` arm for the two parenthesis
variants is modelled by `none` (a panic of the Rust process). -/
def Op.call : Op → ℚ → ℚ → Option ℚ
  | Op.Add, x, y => some (x + y)
  | Op.Sub, x, y => some (x - y)
  | Op.Mul, x, y => some (x * y)
  | Op.Div, x, y => some (x / y)
  | Op.ParOpen, _, _ => none
  | Op.ParClose, _, _ => none

/-- The token enum `MathToken` of `src/main.rs`. -/
inductive MathToken where
  | Num (v : ℚ)
  | Oper (op : Op)
deriving DecidableEq, Repr

/-- The error enum `MathError` of `src/main.rs`. `Tokens` payloads are the
underlying token lists; `String`/`char` payloads are kept as such. -/
inductive MathError where
  | ParseNumError (s : String)
  | UnsupportedCharError (c : Char)
  | BadTokens (msg : String) (ts : List MathToken)
  | MissingParens (ts : List MathToken)
deriving DecidableEq, Repr

/-- Outcome of running a pipeline stage that may panic: `ok` and `err` are
the two `Result` constructors, `panic` is a Rust panic (process abort). -/
inductive Res where
  | ok (v : ℚ)
  | err (e : MathError)
  | panic
deriving DecidableEq, Repr

/-- The character class `'0'..='9' | '.'` that starts and extends a numeric
literal scan in `Tokens::parse` / `Tokens::parse_num`. -/
def numPred (c : Char) : Bool :=
  c.isDigit || c = '.'

/-- Value of a digit string read in base 10. -/
def digitsToNat (cs : List Char) : Nat :=
  cs.foldl (fun acc c => 10 * acc + (c.toNat - '0'.toNat)) 0

/-- Model of `buf.parse::<f64>()` as used in `Tokens::parse_num`: the buffer
consists only of digits and dots; Rust accepts it iff it has at least one
digit and at most one dot, and its value is the exact decimal value (the
`f64` rounding step is immaterial to every claim, so the value is kept
exact in `ℚ`). -/
def parseFloat (cs : List Char) : Option ℚ :=
  if (∀ c ∈ cs, numPred c = true) ∧ cs.count '.' ≤ 1 ∧ cs.any Char.isDigit then
    let ip := cs.takeWhile (fun c => c ≠ '.')
    let fp := (cs.dropWhile (fun c => c ≠ '.')).drop 1
    some ((digitsToNat ip : ℚ) + (digitsToNat fp : ℚ) / ((10 : ℚ) ^ fp.length))
  else none

/-- Model of `str::trim` (leading and trailing whitespace removed). -/
def trim (cs : List Char) : List Char :=
  ((cs.dropWhile Char.isWhitespace).reverse.dropWhile Char.isWhitespace).reverse

namespace Tokens

/-- The loop of `Tokens::parse`, with `Tokens::parse_num` inlined as the
`takeWhile numPred` / `parseFloat` pair (`parse_num` greedily consumes the
digit/dot run and parses it, returning `ParseNumError` on failure).

The third Rust match arm is
`Some(chr @ '=') | Some(chr) if chr.is_whitespace() => { chars.next(); }`:
in Rust a match guard applies to the whole or-pattern, so this arm fires
exactly when the character is whitespace — a bare `=` falls through to the
`Some(_) => Err(UnsupportedCharError(..))` arm. -/
def parseGo : List Char → List MathToken → Except MathError (List MathToken)
  | [], toks => Except.ok toks
  | c :: rest, toks =>
    if h : numPred c then
      match parseFloat ((c :: rest).takeWhile numPred) with
      | some v => parseGo ((c :: rest).dropWhile numPred) (toks ++ [MathToken.Num v])
      | none =>
          Except.error (MathError.ParseNumError (String.mk ((c :: rest).takeWhile numPred)))
    else
      match Op.from_char c with
      | some op => parseGo rest (toks ++ [MathToken.Oper op])
      | none =>
          if c.isWhitespace then parseGo rest toks
          else Except.error (MathError.UnsupportedCharError c)
termination_by cs _ => cs.length
decreasing_by
  · simp only [List.dropWhile_cons, h, if_true, List.length_cons]
    exact Nat.lt_succ_of_le (List.dropWhile_sublist numPred).length_le
  · simp
  · simp

/-- Model of `Tokens::parse`. -/
def parse (input : List Char) : Except MathError (List MathToken) :=
  parseGo input []

/-- The inner `loop` of the `Oper(Op::ParClose)` arm of `Tokens::shunting`:
pop operators to the output until a `ParOpen` is popped (discarded); `none`
models the `op_stack.len() == 0` exit, which raises `MissingParens`. -/
def popUntil : List Op → List MathToken → Option (List Op × List MathToken)
  | [], _ => none
  | Op.ParOpen :: stk, out => some (stk, out)
  | op :: stk, out => popUntil stk (out ++ [MathToken.Oper op])

/-- The `while let Some(&prev) = op_stack.last()` loop of the catch-all
operator arm of `Tokens::shunting`: pop to the output while the incoming
operator's precedence is strictly below the stack top's. -/
def popPrec (oper : Op) : List Op → List MathToken → List Op × List MathToken
  | [], out => ([], out)
  | prev :: stk, out =>
    if oper.precedence < prev.precedence then popPrec oper stk (out ++ [MathToken.Oper prev])
    else (prev :: stk, out)

/-- The token loop of `Tokens::shunting`; `orig` is `self` (the error
payload of `MissingParens`), `stack` the operator stack (head = top),
`out` the output queue. The final `while let Some(oper) = op_stack.pop()`
flushes the remaining stack, top first, onto the output. -/
def shuntingGo (orig : List MathToken) :
    List MathToken → List Op → List MathToken → Except MathError (List MathToken)
  | [], stack, out => Except.ok (out ++ stack.map MathToken.Oper)
  | MathToken.Num v :: rest, stack, out =>
      shuntingGo orig rest stack (out ++ [MathToken.Num v])
  | MathToken.Oper Op.ParOpen :: rest, stack, out =>
      shuntingGo orig rest (Op.ParOpen :: stack) out
  | MathToken.Oper Op.ParClose :: rest, stack, out =>
      match popUntil stack out with
      | none => Except.error (MathError.MissingParens orig)
      | some (stack', out') => shuntingGo orig rest stack' out'
  | MathToken.Oper oper :: rest, stack, out =>
      let so := popPrec oper stack out
      shuntingGo orig rest (oper :: so.1) so.2

/-- Model of `Tokens::shunting`. -/
def shunting (ts : List MathToken) : Except MathError (List MathToken) :=
  shuntingGo ts ts [] []

/-- The token loop and final stack check of `Tokens::solve`; `orig` is
`self` (the error payload of `BadTokens`), `stack` the value stack
(head = top). An operator first checks `stack.len() < 2`, then pops `y`
(top) and `x` and requires both to be `Num`; `Op.call` returning `none`
is the `unreachable!()` panic. -/
def solveGo (orig : List MathToken) : List MathToken → List MathToken → Res
  | [], stack =>
    if stack.length = 1 then
      match stack with
      | MathToken.Num v :: _ => Res.ok v
      | _ =>
          Res.err (MathError.BadTokens
            "unreachable? operators were put on the queue while emptying operator stack." orig)
    else Res.err (MathError.BadTokens "Too many tokens left on stack." orig)
  | MathToken.Num v :: rest, stack => solveGo orig rest (MathToken.Num v :: stack)
  | MathToken.Oper oper :: rest, stack =>
    if stack.length < 2 then
      Res.err (MathError.BadTokens "Not enough tokens to pop from stack." orig)
    else
      match stack with
      | MathToken.Num y :: MathToken.Num x :: stack' =>
          match Op.call oper x y with
          | some r => solveGo orig rest (MathToken.Num r :: stack')
          | none => Res.panic
      | _ => Res.err (MathError.BadTokens "unreachable? operators were put on the queue." orig)

/-- Model of `Tokens::solve`. -/
def solve (ts : List MathToken) : Res :=
  solveGo ts ts []

/-- The `shunting` / `solve` tail of the pipeline, on an already-parsed
infix token sequence (`.shunting()?.solve()`). -/
def shuntThenSolve (ts : List MathToken) : Res :=
  match shunting ts with
  | Except.error e => Res.err e
  | Except.ok rpn => solve rpn

/-- Model of `Tokens::handle`: `Tokens::parse(&input.trim())?.shunting()?.solve()`. -/
def handle (input : List Char) : Res :=
  match parse (trim input) with
  | Except.error e => Res.err e
  | Except.ok ts => shuntThenSolve ts

end Tokens

/-- Does a pipeline outcome consist of one of the two defensive
`BadTokens` errors of `Tokens::solve` whose message begins `unreachable?`? -/
def Res.isUnreachErr : Res → Bool
  | Res.err (MathError.BadTokens msg _) =>
      msg = "unreachable? operators were put on the queue." ||
      msg = "unreachable? operators were put on the queue while emptying operator stack."
  | _ => false

/-- Is a pipeline outcome the `MissingParens` (unbalanced-parentheses)
error? -/
def Res.isMissingParens : Res → Bool
  | Res.err (MathError.MissingParens _) => true
  | _ => false

/-! Helper lemmas -/

/-- A digit or dot is not whitespace. -/
theorem numPred_not_whitespace (c : Char) (h : numPred c = true) :
    Char.isWhitespace c = false := by
  cases hw : Char.isWhitespace c
  · rfl
  · exfalso
    have hc : ((c = ' ' ∨ c = '\t') ∨ c = '\r') ∨ c = '\n' := by
      simpa [Char.isWhitespace] using hw
    rcases hc with ((rfl | rfl) | rfl) | rfl <;> exact absurd h (by decide)

/-- Dropping whitespace is the identity on whitespace-free lists. -/
theorem dropWhile_ws_eq_self (l : List Char)
    (h : ∀ c ∈ l, Char.isWhitespace c = false) :
    l.dropWhile Char.isWhitespace = l := by
  cases l with
  | nil => rfl
  | cons c rest => simp [List.dropWhile, h c (List.mem_cons_self c rest)]

/-- Trimming is the identity on whitespace-free lists. -/
theorem trim_eq_self (l : List Char)
    (h : ∀ c ∈ l, Char.isWhitespace c = false) :
    trim l = l := by
  unfold trim
  rw [dropWhile_ws_eq_self l h, dropWhile_ws_eq_self, List.reverse_reverse]
  intro c hc
  exact h c (List.mem_reverse.mp hc)

/-- Operators left on the stack by the precedence loop come from the stack. -/
theorem popPrec_stack_mem (oper : Op) (stack : List Op) :
    ∀ (out : List MathToken) (x : Op),
      x ∈ (Tokens.popPrec oper stack out).1 → x ∈ stack := by
  induction stack with
  | nil => intro out x hx; simp [Tokens.popPrec] at hx
  | cons prev stk ih =>
    intro out x hx
    by_cases hp : oper.precedence < prev.precedence
    · simp only [Tokens.popPrec, if_pos hp] at hx
      exact List.mem_cons_of_mem _ (ih _ x hx)
    · simp only [Tokens.popPrec, if_neg hp] at hx
      exact hx

/-- Tokens emitted by the precedence loop are old output or stack operators. -/
theorem popPrec_out_mem (oper : Op) (stack : List Op) :
    ∀ (out : List MathToken) (t : MathToken),
      t ∈ (Tokens.popPrec oper stack out).2 →
      t ∈ out ∨ ∃ o, o ∈ stack ∧ t = MathToken.Oper o := by
  induction stack with
  | nil => intro out t ht; simp only [Tokens.popPrec] at ht; exact Or.inl ht
  | cons prev stk ih =>
    intro out t ht
    by_cases hp : oper.precedence < prev.precedence
    · simp only [Tokens.popPrec, if_pos hp] at ht
      rcases ih _ t ht with hmem | ⟨o, ho, rfl⟩
      · rcases List.mem_append.mp hmem with h1 | h1
        · exact Or.inl h1
        · simp only [List.mem_singleton] at h1
          exact Or.inr ⟨prev, List.mem_cons_self _ _, h1⟩
      · exact Or.inr ⟨o, List.mem_cons_of_mem _ ho, rfl⟩
    · simp only [Tokens.popPrec, if_neg hp] at ht
      exact Or.inl ht

/-- Tokens and operators produced by the close-paren loop come from the old
output and the stack. -/
theorem popUntil_mem (stack : List Op) :
    ∀ (out : List MathToken) (stack' : List Op) (out' : List MathToken),
      Tokens.popUntil stack out = some (stack', out') →
      (∀ x ∈ stack', x ∈ stack) ∧
      (∀ t ∈ out', t ∈ out ∨ ∃ o, o ∈ stack ∧ t = MathToken.Oper o) := by
  induction stack with
  | nil => intro out s' o' h; simp [Tokens.popUntil] at h
  | cons op stk ih =>
    intro out s' o' h
    cases op
    case ParOpen =>
      simp only [Tokens.popUntil, Option.some.injEq, Prod.mk.injEq] at h
      obtain ⟨rfl, rfl⟩ := h
      exact ⟨fun x hx => List.mem_cons_of_mem _ hx, fun t ht => Or.inl ht⟩
    all_goals
      simp only [Tokens.popUntil] at h
      obtain ⟨hs, ho⟩ := ih _ s' o' h
      refine ⟨fun x hx => List.mem_cons_of_mem _ (hs x hx), fun t ht => ?_⟩
      rcases ho t ht with hmem | ⟨o, ho', rfl⟩
      · rcases List.mem_append.mp hmem with h1 | h1
        · exact Or.inl h1
        · simp only [List.mem_singleton] at h1
          exact Or.inr ⟨_, List.mem_cons_self _ _, h1⟩
      · exact Or.inr ⟨o, List.mem_cons_of_mem _ ho', rfl⟩

/-- The converter never moves a `ParClose` into its output: if the operator
stack and the output hold no `ParClose`, neither does a successful result. -/
theorem shuntingGo_no_parclose (orig : List MathToken) :
    ∀ (ts : List MathToken) (stack : List Op) (out res : List MathToken),
      Op.ParClose ∉ stack → MathToken.Oper Op.ParClose ∉ out →
      Tokens.shuntingGo orig ts stack out = Except.ok res →
      MathToken.Oper Op.ParClose ∉ res := by
  intro ts
  induction ts with
  | nil =>
    intro stack out res hs ho h
    simp only [Tokens.shuntingGo, Except.ok.injEq] at h
    subst h
    intro hmem
    rcases List.mem_append.mp hmem with h1 | h1
    · exact ho h1
    · rcases List.mem_map.mp h1 with ⟨o, ho', heq⟩
      obtain rfl : o = Op.ParClose := by injection heq
      exact hs ho'
  | cons t rest ih =>
    intro stack out res hs ho h
    cases t with
    | Num v =>
      simp only [Tokens.shuntingGo] at h
      refine ih stack (out ++ [MathToken.Num v]) res hs ?_ h
      intro hmem
      rcases List.mem_append.mp hmem with h1 | h1
      · exact ho h1
      · simp at h1
    | Oper op =>
      cases op
      case ParOpen =>
        simp only [Tokens.shuntingGo] at h
        refine ih _ out res ?_ ho h
        intro hmem
        rcases List.mem_cons.mp hmem with h1 | h1
        · exact absurd h1 (by decide)
        · exact hs h1
      case ParClose =>
        simp only [Tokens.shuntingGo] at h
        cases hp : Tokens.popUntil stack out with
        | none => rw [hp] at h; simp at h
        | some pr =>
          obtain ⟨s', o'⟩ := pr
          rw [hp] at h
          obtain ⟨hs', ho'⟩ := popUntil_mem stack out s' o' hp
          refine ih s' o' res ?_ ?_ h
          · exact fun hmem => hs (hs' _ hmem)
          · intro hmem
            rcases ho' _ hmem with h1 | ⟨o, ho1, heq⟩
            · exact ho h1
            · injection heq with h2
              subst h2
              exact hs ho1
      all_goals
        simp only [Tokens.shuntingGo] at h
        refine ih _ _ res ?_ ?_ h
        · intro hmem
          rcases List.mem_cons.mp hmem with h1 | h1
          · exact absurd h1 (by decide)
          · exact hs (popPrec_stack_mem _ stack out _ h1)
        · intro hmem
          rcases popPrec_out_mem _ stack out _ hmem with h1 | ⟨o, ho1, heq⟩
          · exact ho h1
          · injection heq with h2
            subst h2
            exact hs ho1

/-- Invariant of the evaluator: when the value stack holds only `Num`
tokens, the run never produces one of the two defensive `unreachable?`
errors (it returns a value, a legitimate error, or panics). -/
theorem solveGo_no_unreach (orig : List MathToken) :
    ∀ (ts stack : List MathToken), (∀ t ∈ stack, ∃ v, t = MathToken.Num v) →
      Res.isUnreachErr (Tokens.solveGo orig ts stack) = false := by
  intro ts
  induction ts with
  | nil =>
    intro stack hstack
    simp only [Tokens.solveGo]
    by_cases hl : stack.length = 1
    · rw [if_pos hl]
      cases stack with
      | nil => simp at hl
      | cons t s1 =>
        cases s1 with
        | nil =>
          obtain ⟨v, rfl⟩ := hstack t (List.mem_cons_self _ _)
          rfl
        | cons u s2 => simp at hl
    · rw [if_neg hl]; rfl
  | cons t rest ih =>
    intro stack hstack
    cases t with
    | Num v =>
      simp only [Tokens.solveGo]
      refine ih (MathToken.Num v :: stack) ?_
      intro u hu
      rcases List.mem_cons.mp hu with rfl | hu'
      · exact ⟨v, rfl⟩
      · exact hstack u hu'
    | Oper op =>
      cases stack with
      | nil =>
        have h1 : Tokens.solveGo orig (MathToken.Oper op :: rest) [] =
            Res.err (MathError.BadTokens "Not enough tokens to pop from stack." orig) := rfl
        rw [h1]; rfl
      | cons a s1 =>
        cases s1 with
        | nil =>
          have h1 : Tokens.solveGo orig (MathToken.Oper op :: rest) [a] =
              Res.err (MathError.BadTokens "Not enough tokens to pop from stack." orig) := rfl
          rw [h1]; rfl
        | cons b s2 =>
          obtain ⟨y, rfl⟩ := hstack a (List.mem_cons_self _ _)
          obtain ⟨x, rfl⟩ :=
            hstack b (List.mem_cons_of_mem _ (List.mem_cons_self _ _))
          have h1 : Tokens.solveGo orig (MathToken.Oper op :: rest)
              (MathToken.Num y :: MathToken.Num x :: s2) =
              (match Op.call op x y with
               | some r => Tokens.solveGo orig rest (MathToken.Num r :: s2)
               | none => Res.panic) := rfl
          rw [h1]
          cases hc : Op.call op x y with
          | some r =>
            refine ih (MathToken.Num r :: s2) ?_
            intro u hu
            rcases List.mem_cons.mp hu with rfl | hu'
            · exact ⟨r, rfl⟩
            · exact hstack u
                (List.mem_cons_of_mem _ (List.mem_cons_of_mem _ hu'))
          | none => rfl

/-- On a nonempty all-digit buffer, the modelled float parse returns the
base-10 value of the digits. -/
theorem parseFloat_digits_only (cs : List Char) (hne : cs ≠ [])
    (hd : ∀ c ∈ cs, Char.isDigit c = true) :
    parseFloat cs = some ((digitsToNat cs : ℚ)) := by
  have hnp : ∀ c ∈ cs, numPred c = true := by
    intro c hc
    simp [numPred, hd c hc]
  have hdot : ∀ c ∈ cs, c ≠ '.' := by
    intro c hc heq
    subst heq
    exact absurd (hd _ hc) (by decide)
  have hcount : cs.count '.' = 0 := by
    rw [List.count_eq_zero]
    intro hmem
    exact hdot '.' hmem rfl
  have hany : cs.any Char.isDigit = true := by
    obtain ⟨c, rest, rfl⟩ := List.exists_cons_of_ne_nil hne
    simp [List.any_cons, hd c (List.mem_cons_self _ _)]
  have htw : cs.takeWhile (fun c => c ≠ '.') = cs := by
    refine List.takeWhile_eq_self_iff.mpr ?_
    intro x hx
    simpa using hdot x hx
  have hdw : cs.dropWhile (fun c => c ≠ '.') = [] := by
    refine List.dropWhile_eq_nil_iff.mpr ?_
    intro x hx
    simpa using hdot x hx
  unfold parseFloat
  rw [if_pos ⟨hnp, by rw [hcount]; exact Nat.zero_le 1, hany⟩]
  rw [htw, hdw]
  simp [digitsToNat]

/-! Claim theorems -/

/-- Claim C1 (refuted; the code contradicts its own `unreachable!()`
assertion): the pipeline is not panic-free. On the input `"(1 2"` the
lexer yields `( 1 2`, `shunting` flushes the unmatched `ParOpen` into the
postfix output, and `solve` — finding two values on the stack — reaches
the `unreachable!()` arm of `Op::call`, i.e. the process panics. -/
theorem c1_handle_panics_on_unclosed_paren :
    Tokens.handle ['(', '1', ' ', '2'] = Res.panic := by
  have hp : Tokens.parse (trim ['(', '1', ' ', '2']) =
      Except.ok [MathToken.Oper Op.ParOpen, MathToken.Num 1, MathToken.Num 2] := by
    simp [trim, List.dropWhile, Tokens.parse, Tokens.parseGo, Op.from_char, parseFloat,
      numPred, digitsToNat, List.takeWhile, Char.isWhitespace, Char.isDigit]
  simp only [Tokens.handle, hp]
  decide

/-- Claim C2 (refuted; the guard of the Rust or-pattern
`Some(chr @ '=') | Some(chr) if chr.is_whitespace()` applies to both
alternatives, so `=` is NOT discarded): the lexer raises
`UnsupportedCharError('=')` on `" 1 + 2 = "`, while `"1+2"` evaluates to
`3` — the two inputs do not produce identical results. -/
theorem c2_equals_sign_raises_unsupported_char :
    Tokens.handle [' ', '1', ' ', '+', ' ', '2', ' ', '=', ' '] =
      Res.err (MathError.UnsupportedCharError '=') ∧
    Tokens.handle ['1', '+', '2'] = Res.ok 3 := by
  constructor
  · have hp : Tokens.parse (trim [' ', '1', ' ', '+', ' ', '2', ' ', '=', ' ']) =
        Except.error (MathError.UnsupportedCharError '=') := by
      simp [trim, List.dropWhile, Tokens.parse, Tokens.parseGo, Op.from_char, parseFloat,
        numPred, digitsToNat, List.takeWhile, Char.isWhitespace, Char.isDigit]
    simp only [Tokens.handle, hp]
  · have hp : Tokens.parse (trim ['1', '+', '2']) =
        Except.ok [MathToken.Num 1, MathToken.Oper Op.Add, MathToken.Num 2] := by
      simp [trim, List.dropWhile, Tokens.parse, Tokens.parseGo, Op.from_char, parseFloat,
        numPred, digitsToNat, List.takeWhile, Char.isWhitespace, Char.isDigit]
    have he : Tokens.shuntThenSolve [MathToken.Num 1, MathToken.Oper Op.Add, MathToken.Num 2] =
        Res.ok (1 + 2) := rfl
    simp only [Tokens.handle, hp]
    rw [he]
    norm_num

/-- Claim C3 is false on the code: for `10 - 2 - 3` the pipeline returns
`11` (right association, `10 - (2 - 3)`), not the left-associated
`(10 - 2) - 3 = 5`. -/
theorem c3_counterexample_not_left_assoc :
    Tokens.shuntThenSolve [MathToken.Num 10, MathToken.Oper Op.Sub, MathToken.Num 2,
      MathToken.Oper Op.Sub, MathToken.Num 3] = Res.ok 11 ∧
    ((10 : ℚ) - 2 - 3 = 5) ∧ (11 : ℚ) ≠ 5 := by
  have he : Tokens.shuntThenSolve [MathToken.Num 10, MathToken.Oper Op.Sub, MathToken.Num 2,
      MathToken.Oper Op.Sub, MathToken.Num 3] = Res.ok (10 - (2 - 3)) := rfl
  refine ⟨by rw [he]; norm_num, by norm_num, by norm_num⟩

/-- Claim C3, amended: same-precedence operators RIGHT-associate. Because
an incoming operator does not pop an equal-precedence operator off the
stack, the earlier operator is popped last when the stack is flushed, so
`a op1 b op2 c` evaluates to `a op1 (b op2 c)`. -/
theorem c3_equal_precedence_right_assoc (a b c v w : ℚ) (op1 op2 : Op)
    (hprec : op1.precedence = op2.precedence)
    (h2 : Op.call op2 b c = some v) (h1 : Op.call op1 a v = some w) :
    Tokens.shuntThenSolve [MathToken.Num a, MathToken.Oper op1, MathToken.Num b,
      MathToken.Oper op2, MathToken.Num c] = Res.ok w := by
  cases op1 <;> cases op2 <;>
    simp_all [Tokens.shuntThenSolve, Tokens.shunting, Tokens.shuntingGo, Tokens.popPrec,
      Op.precedence, Op.call, Tokens.solve, Tokens.solveGo]

/-- Witness for C3 amended: `10 - 2 - 3` evaluates to `10 - (2 - 3) = 11`. -/
theorem c3_equal_precedence_right_assoc_witness :
    Tokens.shuntThenSolve [MathToken.Num 10, MathToken.Oper Op.Sub, MathToken.Num 2,
      MathToken.Oper Op.Sub, MathToken.Num 3] = Res.ok 11 :=
  c3_equal_precedence_right_assoc 10 2 3 (-1) 11 Op.Sub Op.Sub rfl
    (by norm_num [Op.call]) (by norm_num [Op.call])

/-- Claim C4 is false on the code: `"(1+2"` does not evaluate to the same
result as `"1+2"` — the latter gives `3`, the former an error. -/
theorem c4_counterexample_unclosed_paren_changes_result :
    Tokens.handle ['1', '+', '2'] = Res.ok 3 ∧
    Tokens.handle ['(', '1', '+', '2'] ≠ Res.ok 3 := by
  have hp1 : Tokens.parse (trim ['1', '+', '2']) =
      Except.ok [MathToken.Num 1, MathToken.Oper Op.Add, MathToken.Num 2] := by
    simp [trim, List.dropWhile, Tokens.parse, Tokens.parseGo, Op.from_char, parseFloat,
      numPred, digitsToNat, List.takeWhile, Char.isWhitespace, Char.isDigit]
  have hp2 : Tokens.parse (trim ['(', '1', '+', '2']) =
      Except.ok [MathToken.Oper Op.ParOpen, MathToken.Num 1, MathToken.Oper Op.Add,
        MathToken.Num 2] := by
    simp [trim, List.dropWhile, Tokens.parse, Tokens.parseGo, Op.from_char, parseFloat,
      numPred, digitsToNat, List.takeWhile, Char.isWhitespace, Char.isDigit]
  have he : Tokens.shuntThenSolve [MathToken.Num 1, MathToken.Oper Op.Add, MathToken.Num 2] =
      Res.ok (1 + 2) := rfl
  constructor
  · simp only [Tokens.handle, hp1]
    rw [he]
    norm_num
  · simp only [Tokens.handle, hp2]
    decide

/-- Claim C4, amended: the converter indeed accepts the unclosed `(` —
`shunting` succeeds — but it flushes the leftover `ParOpen` into the
postfix output, so the sequence does NOT evaluate as if the paren were
absent: `solve` fails with the stack-underflow `BadTokens` error. -/
theorem c4_unclosed_paren_flushed_to_output :
    Tokens.shunting [MathToken.Oper Op.ParOpen, MathToken.Num 1, MathToken.Oper Op.Add,
        MathToken.Num 2] =
      Except.ok [MathToken.Num 1, MathToken.Num 2, MathToken.Oper Op.Add,
        MathToken.Oper Op.ParOpen] ∧
    Tokens.solve [MathToken.Num 1, MathToken.Num 2, MathToken.Oper Op.Add,
        MathToken.Oper Op.ParOpen] =
      Res.err (MathError.BadTokens "Not enough tokens to pop from stack."
        [MathToken.Num 1, MathToken.Num 2, MathToken.Oper Op.Add,
          MathToken.Oper Op.ParOpen]) := by
  exact ⟨rfl, by decide⟩

/-- Claim C5 is false on the code: the error produced for `"(1+2"` is not
of the `MissingParens` (UnbalancedParentheses) class. -/
theorem c5_counterexample_error_not_missing_parens :
    Res.isMissingParens (Tokens.handle ['(', '1', '+', '2']) = false := by
  have hp : Tokens.parse (trim ['(', '1', '+', '2']) =
      Except.ok [MathToken.Oper Op.ParOpen, MathToken.Num 1, MathToken.Oper Op.Add,
        MathToken.Num 2] := by
    simp [trim, List.dropWhile, Tokens.parse, Tokens.parseGo, Op.from_char, parseFloat,
      numPred, digitsToNat, List.takeWhile, Char.isWhitespace, Char.isDigit]
  simp only [Tokens.handle, hp]
  decide

/-- Claim C5, amended: `"(1+2"` makes the pipeline fail — not crash, not
return a number — but with the `BadTokens` stack-underflow error of the
evaluator (carrying the postfix sequence with the leftover `ParOpen`),
not with `MissingParens`. -/
theorem c5_unclosed_paren_fails_with_bad_tokens :
    Tokens.handle ['(', '1', '+', '2'] =
      Res.err (MathError.BadTokens "Not enough tokens to pop from stack."
        [MathToken.Num 1, MathToken.Num 2, MathToken.Oper Op.Add,
          MathToken.Oper Op.ParOpen]) := by
  have hp : Tokens.parse (trim ['(', '1', '+', '2']) =
      Except.ok [MathToken.Oper Op.ParOpen, MathToken.Num 1, MathToken.Oper Op.Add,
        MathToken.Num 2] := by
    simp [trim, List.dropWhile, Tokens.parse, Tokens.parseGo, Op.from_char, parseFloat,
      numPred, digitsToNat, List.takeWhile, Char.isWhitespace, Char.isDigit]
  simp only [Tokens.handle, hp]
  decide

/-- Claim C6 is false on the code: `shunting` succeeds on the sole token
`(` and its output contains that `ParOpen` token. -/
theorem c6_counterexample_paropen_in_output :
    Tokens.shunting [MathToken.Oper Op.ParOpen] =
      Except.ok [MathToken.Oper Op.ParOpen] ∧
    MathToken.Oper Op.ParOpen ∈ [MathToken.Oper Op.ParOpen] :=
  ⟨rfl, List.mem_cons_self _ _⟩

/-- Claim C6, amended: a successful `shunting` output never contains a
`ParClose` token (it may contain `ParOpen` tokens left over from
unmatched opening parentheses). -/
theorem c6_output_never_contains_parclose (ts out : List MathToken)
    (h : Tokens.shunting ts = Except.ok out) :
    MathToken.Oper Op.ParClose ∉ out :=
  shuntingGo_no_parclose ts ts [] [] out (List.not_mem_nil _) (List.not_mem_nil _) h

/-- Witness for C6 amended, at the infix sequence `1 + 2`. -/
theorem c6_output_never_contains_parclose_witness :
    MathToken.Oper Op.ParClose ∉
      [MathToken.Num 1, MathToken.Num 2, MathToken.Oper Op.Add] :=
  c6_output_never_contains_parclose
    [MathToken.Num 1, MathToken.Oper Op.Add, MathToken.Num 2]
    [MathToken.Num 1, MathToken.Num 2, MathToken.Oper Op.Add] rfl

/-- Claim C7: a `)` processed while the operator stack is empty makes
`shunting` fail with `MissingParens` carrying the original infix sequence
(`orig` is the `self` argument `shunting` passes along); in particular an
infix sequence beginning with `)` fails that way at once. -/
theorem c7_close_paren_on_empty_stack_missing_parens
    (orig rest out : List MathToken) :
    Tokens.shuntingGo orig (MathToken.Oper Op.ParClose :: rest) [] out =
      Except.error (MathError.MissingParens orig) ∧
    Tokens.shunting (MathToken.Oper Op.ParClose :: rest) =
      Except.error (MathError.MissingParens (MathToken.Oper Op.ParClose :: rest)) :=
  ⟨rfl, rfl⟩

/-- Claim C8: once all tokens are consumed, the evaluator returns the
single stack value when exactly one value remains and otherwise fails
with the `BadTokens` error `Too many tokens left on stack.` (the
`MalformedExpression` class); the input `"1 2"` produces exactly this
error. -/
theorem c8_final_stack_check (orig stack : List MathToken)
    (h : ∀ t ∈ stack, ∃ v, t = MathToken.Num v) :
    (Tokens.solveGo orig [] stack =
      match stack with
      | [MathToken.Num v] => Res.ok v
      | _ => Res.err (MathError.BadTokens "Too many tokens left on stack." orig)) ∧
    Tokens.handle ['1', ' ', '2'] =
      Res.err (MathError.BadTokens "Too many tokens left on stack."
        [MathToken.Num 1, MathToken.Num 2]) := by
  constructor
  · cases stack with
    | nil => rfl
    | cons a s1 =>
      cases s1 with
      | nil =>
        obtain ⟨v, rfl⟩ := h a (List.mem_cons_self _ _)
        rfl
      | cons b s2 =>
        obtain ⟨y, rfl⟩ := h a (List.mem_cons_self _ _)
        obtain ⟨x, rfl⟩ := h b (List.mem_cons_of_mem _ (List.mem_cons_self _ _))
        rfl
  · have hp : Tokens.parse (trim ['1', ' ', '2']) =
        Except.ok [MathToken.Num 1, MathToken.Num 2] := by
      simp [trim, List.dropWhile, Tokens.parse, Tokens.parseGo, Op.from_char, parseFloat,
        numPred, digitsToNat, List.takeWhile, Char.isWhitespace, Char.isDigit]
    simp only [Tokens.handle, hp]
    decide

/-- Witness for C8, at the final stack `[1, 2]` of the run on `"1 2"`. -/
theorem c8_final_stack_check_witness :
    Tokens.solveGo [] [] [MathToken.Num 1, MathToken.Num 2] =
      Res.err (MathError.BadTokens "Too many tokens left on stack." []) ∧
    Tokens.handle ['1', ' ', '2'] =
      Res.err (MathError.BadTokens "Too many tokens left on stack."
        [MathToken.Num 1, MathToken.Num 2]) :=
  c8_final_stack_check [] [MathToken.Num 1, MathToken.Num 2]
    (by intro t ht
        rcases List.mem_cons.mp ht with rfl | ht1
        · exact ⟨1, rfl⟩
        · rcases List.mem_cons.mp ht1 with rfl | ht2
          · exact ⟨2, rfl⟩
          · simp at ht2)

/-- Claim C9: an input that is one valid numeric literal (digits and at
most one dot, with at least one digit) runs the whole pipeline to exactly
its own value. -/
theorem c9_single_literal_evaluates_to_itself (cs : List Char) (n : ℚ)
    (hall : ∀ c ∈ cs, numPred c = true) (hp : parseFloat cs = some n) :
    Tokens.handle cs = Res.ok n := by
  have hws : ∀ c ∈ cs, Char.isWhitespace c = false :=
    fun c hc => numPred_not_whitespace c (hall c hc)
  have htrim : trim cs = cs := trim_eq_self cs hws
  have hne : cs ≠ [] := by
    intro h
    subst h
    simp [parseFloat] at hp
  obtain ⟨c, rest, rfl⟩ := List.exists_cons_of_ne_nil hne
  have hc0 : numPred c = true := hall c (List.mem_cons_self _ _)
  have htake : (c :: rest).takeWhile numPred = c :: rest :=
    List.takeWhile_eq_self_iff.mpr hall
  have hdrop : (c :: rest).dropWhile numPred = [] :=
    List.dropWhile_eq_nil_iff.mpr hall
  have hparse : Tokens.parse (c :: rest) = Except.ok [MathToken.Num n] := by
    show Tokens.parseGo (c :: rest) [] = Except.ok [MathToken.Num n]
    simp only [Tokens.parseGo]
    rw [dif_pos hc0, htake, hp, hdrop]
    simp [Tokens.parseGo]
  simp only [Tokens.handle, htrim, hparse]
  rfl

/-- Witness for C9, at the literal `"7"` whose value is `7`. -/
theorem c9_single_literal_evaluates_to_itself_witness :
    Tokens.handle ['7'] = Res.ok 7 :=
  c9_single_literal_evaluates_to_itself ['7'] 7 (by decide)
    (by rw [parseFloat_digits_only ['7'] (by simp) (by decide)]
        have h7 : digitsToNat ['7'] = 7 := by decide
        rw [h7]
        norm_num)

/-- Claim C10: the evaluator pushes only `Num` tokens on its value stack,
so for every token sequence the two defensive `BadTokens` branches of
`Tokens::solve` whose message begins `unreachable?` are never taken. -/
theorem c10_solve_never_hits_unreachable_branches (ts : List MathToken) :
    Res.isUnreachErr (Tokens.solve ts) = false :=
  solveGo_no_unreach ts ts [] (fun t ht => absurd ht (List.not_mem_nil t))

end ShuntingYard
